import Mathlib

/-!
Verification of the operation execution engine of the rand-o-mania
repository (`src/app/services/execution_engine.py`, duplicated in
`src/main.py`).

Modelling conventions (shallow embedding):
* Python floats are modelled by `ℚ`.  `round(x, 10)` is `roundTo10`.
* `random.random()` is modelled by an ambient draw stream `rand : ℕ → ℚ`;
  the k-th call of `generate_random` reads `rand k` (the call index equals
  the current length of the random trace, since every call appends one
  entry).
* `math.sqrt` is a floating-point function with no exact rational
  counterpart; it is modelled by an ambient function `sq : ℚ → ℚ`.
* Operation dicts become the inductive `Op`; absent optional keys are
  `Option.none`; a field holding an arbitrary JSON value becomes `Val`.
* Python exceptions become the `Err` sum: the two engine errors plus the
  `KeyError` raised by `assign` without a `variable` key and the
  `AttributeError` raised by `conditional` without a `condition` dict.
* The mutable `self` object is an explicit `EngineState` threaded through;
  a raised exception leaves the state as it was at the raise site, so the
  interpreter returns `EngineState × Except Err _`.
-/

/-- One decimal rounding step: Python's `round(q, 10)` (round-half modelled
by Mathlib's `round`; no claim here depends on tie-breaking, since every
statement uses this same function on both sides). -/
def roundTo10 (q : ℚ) : ℚ := (round (q * 10 ^ 10) : ℚ) / 10 ^ 10

/-- A JSON-ish value sitting in an operation field: `none` for null/absent,
a number, a string, or anything else (an object/array, which `float`
rejects with `TypeError`). -/
inductive Val where
  | none
  | num (q : ℚ)
  | str (s : String)
  | other
deriving DecidableEq

/-- A condition dict `{left, operator, right}`; a missing `operator` key is
`Option.none`. -/
structure Cond where
  left : Val
  operator : Option String
  right : Val
deriving DecidableEq

/-- Errors (Python exceptions) the interpreter can raise. -/
inductive Err where
  | divisionByZero
  | negativeRadicand
  | keyError (k : String)
  | attributeError
deriving DecidableEq

/-- An operation dict, tagged by its `type` key.  `var` models the optional
`variable` key (`assign` reads it with `op['variable']`, hence may fail, so
it is optional there too).  `unknown` stands for every unrecognized type. -/
inductive Op where
  | generate_random (var : Option String)
  | multiply (a b : Val) (var : Option String)
  | divide (a b : Val) (var : Option String)
  | square_root (num : Val) (var : Option String)
  | conditional (condition : Option Cond) (if_true if_false : List Op)
      (var : Option String)
  | assign (var : Option String) (value : Val)
  | unknown

/-- The variable environment: a Python dict as an insertion-ordered
association list. -/
abbrev Env := List (String × ℚ)

/-- Dict lookup. -/
def lookupVar : Env → String → Option ℚ
  | [], _ => Option.none
  | (k, v) :: rest, key => if k = key then some v else lookupVar rest key

/-- Dict update: overwrite in place if the key exists, else append. -/
def setVar : Env → String → ℚ → Env
  | [], key, val => [(key, val)]
  | (k, v) :: rest, key, val =>
      if k = key then (k, val) :: rest else (k, v) :: setVar rest key val

/-- The engine's mutable fields (`self.random_numbers`, `self.variables`). -/
structure EngineState where
  random_numbers : List ℚ
  vars : Env
deriving DecidableEq

/-- The fresh state built by `ExecutionEngine.__init__`. -/
def initState : EngineState := ⟨[], []⟩

/-- Store a result under the optional `variable` key
(`if 'variable' in op: self.variables[op['variable']] = result`). -/
def maybeSet (st : EngineState) (var : Option String) (r : ℚ) : EngineState :=
  match var with
  | some v => { st with vars := setVar st.vars v r }
  | Option.none => st

/-- Numeric value of a digit list (most significant first). -/
def digitsVal (ds : List Char) : ℕ :=
  ds.foldl (fun acc c => 10 * acc + (c.toNat - 48)) 0

/-- Split a leading run of decimal digits. -/
def takeDigits (cs : List Char) : List Char × List Char :=
  (cs.takeWhile Char.isDigit, cs.dropWhile Char.isDigit)

/-- Parse an optional leading sign; `true` means negative. -/
def parseSign : List Char → Bool × List Char
  | '+' :: rest => (false, rest)
  | '-' :: rest => (true, rest)
  | cs => (false, cs)

/-- Parse the optional exponent suffix of a float literal and apply it to
the mantissa `m`; fails if anything is left over. -/
def parseExpSuffix (m : ℚ) : List Char → Option ℚ
  | [] => some m
  | c :: rest =>
      if c = 'e' ∨ c = 'E' then
        let (eneg, rest1) := parseSign rest
        let (ed, rest2) := takeDigits rest1
        if ed.isEmpty ∨ ¬ rest2.isEmpty then Option.none
        else
          let e : ℤ := if eneg then -(digitsVal ed : ℤ) else (digitsVal ed : ℤ)
          some (m * (10 : ℚ) ^ e)
      else Option.none

/-- Parse a (trimmed) decimal float literal: optional sign, digits with an
optional fractional part (at least one digit overall), optional exponent.
Models Python's `float()` on finite decimal literals. -/
def pyFloatCore (cs : List Char) : Option ℚ :=
  let (neg, cs1) := parseSign cs
  let (ip, cs2) := takeDigits cs1
  let sgn : ℚ := if neg then -1 else 1
  match cs2 with
  | '.' :: cs3 =>
      let (fp, cs4) := takeDigits cs3
      if ip.isEmpty ∧ fp.isEmpty then Option.none
      else
        let mant : ℚ := (digitsVal ip : ℚ) + (digitsVal fp : ℚ) / 10 ^ fp.length
        parseExpSuffix (sgn * mant) cs4
  | rest =>
      if ip.isEmpty then Option.none
      else parseExpSuffix (sgn * (digitsVal ip : ℚ)) rest

/-- Whitespace in the sense of Python's `str.strip` as used by `float()`:
space, tab, LF, VT, FF, CR. -/
def isPySpace (c : Char) : Bool := c = ' ' || (9 ≤ c.toNat && c.toNat ≤ 13)

/-- Trim leading and trailing whitespace from a character list. -/
def trimChars (cs : List Char) : List Char :=
  ((cs.dropWhile isPySpace).reverse.dropWhile isPySpace).reverse

/-- Python `float(s)` for a string `s` (whitespace trimmed, as `float`
does); `none` models the `ValueError` that `_get_value` catches. -/
def pyFloat (s : String) : Option ℚ := pyFloatCore (trimChars s.data)

namespace Engine

/-- `ExecutionEngine.generate_random` (execution_engine.py lines 16-23):
draw, round to 10 decimals, append to the trace.  The draw index is the
current trace length (one draw per past call). -/
def generate_random (rand : ℕ → ℚ) (st : EngineState) : ℚ × EngineState :=
  let num := roundTo10 (rand st.random_numbers.length)
  (num, { st with random_numbers := st.random_numbers ++ [num] })

/-- `ExecutionEngine.multiply` (lines 25-30). -/
def multiply (a b : ℚ) : ℚ := roundTo10 (a * b)

/-- `ExecutionEngine.divide` (lines 32-40): raises on `b == 0`. -/
def divide (a b : ℚ) : Except Err ℚ :=
  if b = 0 then Except.error Err.divisionByZero
  else Except.ok (roundTo10 (a / b))

/-- `ExecutionEngine.square_root` (lines 42-50): raises on `num < 0`;
`math.sqrt` is the ambient `sq`. -/
def square_root (sq : ℚ → ℚ) (num : ℚ) : Except Err ℚ :=
  if num < 0 then Except.error Err.negativeRadicand
  else Except.ok (roundTo10 (sq num))

/-- `ExecutionEngine._get_value` (lines 135-146): None to 0.0; a string
bound in `variables` to its value; otherwise `float(value)` with failures
absorbed to 0.0. -/
def _get_value (st : EngineState) : Val → ℚ
  | Val.none => 0
  | Val.num q => q
  | Val.str s =>
      match lookupVar st.vars s with
      | some v => v
      | Option.none =>
          match pyFloat s with
          | some q => q
          | Option.none => 0
  | Val.other => 0

/-- The tolerance literal `0.0000000001` of lines 163 and 165. -/
def tol : ℚ := 1 / 10 ^ 10

/-- `ExecutionEngine._evaluate_condition` (lines 148-170). -/
def _evaluate_condition (st : EngineState) (c : Cond) : Bool :=
  let left := _get_value st c.left
  let right := _get_value st c.right
  match c.operator with
  | some "<" => decide (left < right)
  | some ">" => decide (left > right)
  | some "<=" => decide (left ≤ right)
  | some ">=" => decide (left ≥ right)
  | some "==" => decide (|left - right| < tol)
  | some "!=" => decide (|left - right| ≥ tol)
  | _ => false

/-- The loop body of `ExecutionEngine.execute_operations` (lines 52-133),
with the local `result` (`Option ℚ`, starting as Python's `None`) made
explicit.  The recursive `self.execute_operations(branch)` call of lines
113-116 appears as a recursive `execLoop branch Option.none` followed by
the callee's `result if result is not None else 0.0` defaulting
(`Option.getD _ 0`).  A raised exception returns the state at the raise
site (Python mutates `self` in place, so those effects persist). -/
def execLoop (rand : ℕ → ℚ) (sq : ℚ → ℚ) :
    List Op → Option ℚ → EngineState → EngineState × Except Err (Option ℚ)
  | [], result, st => (st, Except.ok result)
  | op :: rest, result, st =>
    match op with
    | Op.generate_random var =>
        let p := generate_random rand st
        execLoop rand sq rest (some p.1) (maybeSet p.2 var p.1)
    | Op.multiply a b var =>
        let av := _get_value st a
        let bv := _get_value st b
        let r := multiply av bv
        execLoop rand sq rest (some r) (maybeSet st var r)
    | Op.divide a b var =>
        let av := _get_value st a
        let bv := _get_value st b
        match divide av bv with
        | Except.error e => (st, Except.error e)
        | Except.ok r => execLoop rand sq rest (some r) (maybeSet st var r)
    | Op.square_root n var =>
        let nv := _get_value st n
        match square_root sq nv with
        | Except.error e => (st, Except.error e)
        | Except.ok r => execLoop rand sq rest (some r) (maybeSet st var r)
    | Op.conditional cond if_true if_false var =>
        match cond with
        | Option.none => (st, Except.error Err.attributeError)
        | some c =>
            if _evaluate_condition st c then
              match execLoop rand sq if_true Option.none st with
              | (st1, Except.error e) => (st1, Except.error e)
              | (st1, Except.ok subRes) =>
                  let r := subRes.getD 0
                  execLoop rand sq rest (some r) (maybeSet st1 var r)
            else
              match execLoop rand sq if_false Option.none st with
              | (st1, Except.error e) => (st1, Except.error e)
              | (st1, Except.ok subRes) =>
                  let r := subRes.getD 0
                  execLoop rand sq rest (some r) (maybeSet st1 var r)
    | Op.assign var value =>
        match var with
        | Option.none => (st, Except.error (Err.keyError "variable"))
        | some v =>
            let val := _get_value st value
            let st1 : EngineState := { st with vars := setVar st.vars v val }
            execLoop rand sq rest (some val) st1
    | Op.unknown => execLoop rand sq rest result st
termination_by ops _ _ => sizeOf ops
decreasing_by all_goals (simp_wf; try omega)

/-- `ExecutionEngine.execute_operations` (lines 52-133): run the loop with
`result = None` and apply the final
`return result if result is not None else 0.0`. -/
def execute_operations (rand : ℕ → ℚ) (sq : ℚ → ℚ) (operations : List Op)
    (st : EngineState) : EngineState × Except Err ℚ :=
  match execLoop rand sq operations Option.none st with
  | (st1, Except.error e) => (st1, Except.error e)
  | (st1, Except.ok result) => (st1, Except.ok (result.getD 0))

end Engine

namespace Main

/-- `main.py` `ExecutionEngine.generate_random` (lines 40-46). -/
def generate_random (rand : ℕ → ℚ) (st : EngineState) : ℚ × EngineState :=
  let num := roundTo10 (rand st.random_numbers.length)
  (num, { st with random_numbers := st.random_numbers ++ [num] })

/-- `main.py` `ExecutionEngine.multiply` (lines 48-51). -/
def multiply (a b : ℚ) : ℚ := roundTo10 (a * b)

/-- `main.py` `ExecutionEngine.divide` (lines 53-58). -/
def divide (a b : ℚ) : Except Err ℚ :=
  if b = 0 then Except.error Err.divisionByZero
  else Except.ok (roundTo10 (a / b))

/-- `main.py` `ExecutionEngine.square_root` (lines 60-65). -/
def square_root (sq : ℚ → ℚ) (num : ℚ) : Except Err ℚ :=
  if num < 0 then Except.error Err.negativeRadicand
  else Except.ok (roundTo10 (sq num))

/-- `main.py` `ExecutionEngine._get_value` (lines 123-134). -/
def _get_value (st : EngineState) : Val → ℚ
  | Val.none => 0
  | Val.num q => q
  | Val.str s =>
      match lookupVar st.vars s with
      | some v => v
      | Option.none =>
          match pyFloat s with
          | some q => q
          | Option.none => 0
  | Val.other => 0

/-- `main.py` `ExecutionEngine._evaluate_condition` (lines 136-154); the
tolerance literal is the same `0.0000000001`. -/
def _evaluate_condition (st : EngineState) (c : Cond) : Bool :=
  let left := _get_value st c.left
  let right := _get_value st c.right
  match c.operator with
  | some "<" => decide (left < right)
  | some ">" => decide (left > right)
  | some "<=" => decide (left ≤ right)
  | some ">=" => decide (left ≥ right)
  | some "==" => decide (|left - right| < Engine.tol)
  | some "!=" => decide (|left - right| ≥ Engine.tol)
  | _ => false

/-- The loop of `main.py` `ExecutionEngine.execute_operations` (lines
67-121), embedded exactly as `Engine.execLoop` is for the services copy
(that copy differs only in its logging statements, which have no effect on
state or result and are not modelled). -/
def execLoop (rand : ℕ → ℚ) (sq : ℚ → ℚ) :
    List Op → Option ℚ → EngineState → EngineState × Except Err (Option ℚ)
  | [], result, st => (st, Except.ok result)
  | op :: rest, result, st =>
    match op with
    | Op.generate_random var =>
        let p := generate_random rand st
        execLoop rand sq rest (some p.1) (maybeSet p.2 var p.1)
    | Op.multiply a b var =>
        let av := _get_value st a
        let bv := _get_value st b
        let r := multiply av bv
        execLoop rand sq rest (some r) (maybeSet st var r)
    | Op.divide a b var =>
        let av := _get_value st a
        let bv := _get_value st b
        match divide av bv with
        | Except.error e => (st, Except.error e)
        | Except.ok r => execLoop rand sq rest (some r) (maybeSet st var r)
    | Op.square_root n var =>
        let nv := _get_value st n
        match square_root sq nv with
        | Except.error e => (st, Except.error e)
        | Except.ok r => execLoop rand sq rest (some r) (maybeSet st var r)
    | Op.conditional cond if_true if_false var =>
        match cond with
        | Option.none => (st, Except.error Err.attributeError)
        | some c =>
            if _evaluate_condition st c then
              match execLoop rand sq if_true Option.none st with
              | (st1, Except.error e) => (st1, Except.error e)
              | (st1, Except.ok subRes) =>
                  let r := subRes.getD 0
                  execLoop rand sq rest (some r) (maybeSet st1 var r)
            else
              match execLoop rand sq if_false Option.none st with
              | (st1, Except.error e) => (st1, Except.error e)
              | (st1, Except.ok subRes) =>
                  let r := subRes.getD 0
                  execLoop rand sq rest (some r) (maybeSet st1 var r)
    | Op.assign var value =>
        match var with
        | Option.none => (st, Except.error (Err.keyError "variable"))
        | some v =>
            let val := _get_value st value
            let st1 : EngineState := { st with vars := setVar st.vars v val }
            execLoop rand sq rest (some val) st1
    | Op.unknown => execLoop rand sq rest result st
termination_by ops _ _ => sizeOf ops
decreasing_by all_goals (simp_wf; try omega)

/-- `main.py` `ExecutionEngine.execute_operations` (lines 67-121). -/
def execute_operations (rand : ℕ → ℚ) (sq : ℚ → ℚ) (operations : List Op)
    (st : EngineState) : EngineState × Except Err ℚ :=
  match execLoop rand sq operations Option.none st with
  | (st1, Except.error e) => (st1, Except.error e)
  | (st1, Except.ok result) => (st1, Except.ok (result.getD 0))

end Main

mutual

/-- The structural keys the interpreter reads unconditionally: `assign`
reads `op['variable']` and `conditional` calls `.get` on its `condition`
dict (recursively in both branches).  Used to state which operation lists
can raise only the two numeric errors. -/
def requiredKeysPresent : Op → Bool
  | Op.conditional cond if_true if_false _ =>
      cond.isSome && requiredKeysPresentList if_true
        && requiredKeysPresentList if_false
  | Op.assign var _ => var.isSome
  | _ => true

/-- `requiredKeysPresent` on every element of a list. -/
def requiredKeysPresentList : List Op → Bool
  | [] => true
  | op :: rest => requiredKeysPresent op && requiredKeysPresentList rest

end

/-- The leaf methods of the two engine copies coincide (same body,
logging aside). -/
theorem main_generate_random_eq :
    @Main.generate_random = @Engine.generate_random := rfl

/-- `multiply` coincides across the two copies. -/
theorem main_multiply_eq : @Main.multiply = @Engine.multiply := rfl

/-- `divide` coincides across the two copies. -/
theorem main_divide_eq : @Main.divide = @Engine.divide := rfl

/-- `square_root` coincides across the two copies. -/
theorem main_square_root_eq : @Main.square_root = @Engine.square_root := rfl

/-- `_get_value` coincides across the two copies. -/
theorem main_get_value_eq : @Main._get_value = @Engine._get_value := rfl

/-- `_evaluate_condition` coincides across the two copies. -/
theorem main_eval_cond_eq :
    @Main._evaluate_condition = @Engine._evaluate_condition := rfl

/-- The two execution loops agree on every input. -/
theorem engines_execLoop_eq (rand : ℕ → ℚ) (sq : ℚ → ℚ)
    (ops : List Op) (res : Option ℚ) (st : EngineState) :
    Engine.execLoop rand sq ops res st = Main.execLoop rand sq ops res st := by
  induction ops, res, st using Engine.execLoop.induct rand sq
  all_goals simp only [Engine.execLoop, Main.execLoop, main_generate_random_eq,
    main_multiply_eq, main_divide_eq, main_square_root_eq, main_get_value_eq,
    main_eval_cond_eq]
  all_goals simp_all

/-- Unfolding: an empty operation list leaves result and state alone. -/
theorem execLoop_nil (rand : ℕ → ℚ) (sq : ℚ → ℚ) (res : Option ℚ)
    (st : EngineState) :
    Engine.execLoop rand sq [] res st = (st, Except.ok res) := by
  simp [Engine.execLoop]

/-- Unfolding: an unrecognized operation changes neither result nor
state. -/
theorem execLoop_unknown_step (rand : ℕ → ℚ) (sq : ℚ → ℚ) (rest : List Op)
    (res : Option ℚ) (st : EngineState) :
    Engine.execLoop rand sq (Op.unknown :: rest) res st
      = Engine.execLoop rand sq rest res st := by
  conv_lhs => simp only [Engine.execLoop]

/-- Unfolding: one `generate_random` step. -/
theorem execLoop_generate_random (rand : ℕ → ℚ) (sq : ℚ → ℚ)
    (var : Option String) (rest : List Op) (res : Option ℚ)
    (st : EngineState) :
    Engine.execLoop rand sq (Op.generate_random var :: rest) res st
      = Engine.execLoop rand sq rest (some (Engine.generate_random rand st).1)
          (maybeSet (Engine.generate_random rand st).2 var
            (Engine.generate_random rand st).1) := by
  conv_lhs => simp only [Engine.execLoop]

/-- Unfolding: one `multiply` step. -/
theorem execLoop_multiply (rand : ℕ → ℚ) (sq : ℚ → ℚ) (a b : Val)
    (var : Option String) (rest : List Op) (res : Option ℚ)
    (st : EngineState) :
    Engine.execLoop rand sq (Op.multiply a b var :: rest) res st
      = Engine.execLoop rand sq rest
          (some (Engine.multiply (Engine._get_value st a)
            (Engine._get_value st b)))
          (maybeSet st var (Engine.multiply (Engine._get_value st a)
            (Engine._get_value st b))) := by
  conv_lhs => simp only [Engine.execLoop]

/-- Unfolding: one `divide` step. -/
theorem execLoop_divide (rand : ℕ → ℚ) (sq : ℚ → ℚ) (a b : Val)
    (var : Option String) (rest : List Op) (res : Option ℚ)
    (st : EngineState) :
    Engine.execLoop rand sq (Op.divide a b var :: rest) res st
      = match Engine.divide (Engine._get_value st a)
            (Engine._get_value st b) with
        | Except.error e => (st, Except.error e)
        | Except.ok r =>
            Engine.execLoop rand sq rest (some r) (maybeSet st var r) := by
  conv_lhs => simp only [Engine.execLoop]

/-- Unfolding: one `square_root` step. -/
theorem execLoop_square_root (rand : ℕ → ℚ) (sq : ℚ → ℚ) (n : Val)
    (var : Option String) (rest : List Op) (res : Option ℚ)
    (st : EngineState) :
    Engine.execLoop rand sq (Op.square_root n var :: rest) res st
      = match Engine.square_root sq (Engine._get_value st n) with
        | Except.error e => (st, Except.error e)
        | Except.ok r =>
            Engine.execLoop rand sq rest (some r) (maybeSet st var r) := by
  conv_lhs => simp only [Engine.execLoop]

/-- Unfolding: a `conditional` without a `condition` dict raises
(`None.get` is an `AttributeError`). -/
theorem execLoop_conditional_missing (rand : ℕ → ℚ) (sq : ℚ → ℚ)
    (tb fb : List Op) (var : Option String) (rest : List Op)
    (res : Option ℚ) (st : EngineState) :
    Engine.execLoop rand sq (Op.conditional Option.none tb fb var :: rest)
        res st
      = (st, Except.error Err.attributeError) := by
  conv_lhs => simp only [Engine.execLoop]

/-- Unfolding: a `conditional` whose condition holds runs `if_true`. -/
theorem execLoop_conditional_true (rand : ℕ → ℚ) (sq : ℚ → ℚ) (c : Cond)
    (tb fb : List Op) (var : Option String) (rest : List Op)
    (res : Option ℚ) (st : EngineState)
    (h : Engine._evaluate_condition st c = true) :
    Engine.execLoop rand sq (Op.conditional (some c) tb fb var :: rest)
        res st
      = match Engine.execLoop rand sq tb Option.none st with
        | (st1, Except.error e) => (st1, Except.error e)
        | (st1, Except.ok sub) =>
            Engine.execLoop rand sq rest (some (sub.getD 0))
              (maybeSet st1 var (sub.getD 0)) := by
  conv_lhs => simp only [Engine.execLoop]
  simp [h]

/-- Unfolding: a `conditional` whose condition fails runs `if_false`. -/
theorem execLoop_conditional_false (rand : ℕ → ℚ) (sq : ℚ → ℚ) (c : Cond)
    (tb fb : List Op) (var : Option String) (rest : List Op)
    (res : Option ℚ) (st : EngineState)
    (h : Engine._evaluate_condition st c = false) :
    Engine.execLoop rand sq (Op.conditional (some c) tb fb var :: rest)
        res st
      = match Engine.execLoop rand sq fb Option.none st with
        | (st1, Except.error e) => (st1, Except.error e)
        | (st1, Except.ok sub) =>
            Engine.execLoop rand sq rest (some (sub.getD 0))
              (maybeSet st1 var (sub.getD 0)) := by
  conv_lhs => simp only [Engine.execLoop]
  simp [h]

/-- Unfolding: an `assign` without its `variable` key raises `KeyError`. -/
theorem execLoop_assign_missing (rand : ℕ → ℚ) (sq : ℚ → ℚ) (value : Val)
    (rest : List Op) (res : Option ℚ) (st : EngineState) :
    Engine.execLoop rand sq (Op.assign Option.none value :: rest) res st
      = (st, Except.error (Err.keyError "variable")) := by
  conv_lhs => simp only [Engine.execLoop]

/-- Unfolding: one `assign` step with its `variable` key present. -/
theorem execLoop_assign (rand : ℕ → ℚ) (sq : ℚ → ℚ) (v : String)
    (value : Val) (rest : List Op) (res : Option ℚ) (st : EngineState) :
    Engine.execLoop rand sq (Op.assign (some v) value :: rest) res st
      = Engine.execLoop rand sq rest (some (Engine._get_value st value))
          { st with vars := setVar st.vars v (Engine._get_value st value) } := by
  conv_lhs => simp only [Engine.execLoop]

theorem execLoop_append (rand : ℕ → ℚ) (sq : ℚ → ℚ) (l1 l2 : List Op)
    (res : Option ℚ) (st : EngineState) :
    Engine.execLoop rand sq (l1 ++ l2) res st
      = match Engine.execLoop rand sq l1 res st with
        | (st1, Except.error e) => (st1, Except.error e)
        | (st1, Except.ok r1) => Engine.execLoop rand sq l2 r1 st1 := by
  induction l1 generalizing res st with
  | nil => simp [execLoop_nil]
  | cons op rest ih =>
    rw [List.cons_append]
    cases op with
    | generate_random var =>
        rw [execLoop_generate_random, execLoop_generate_random, ih]
    | multiply a b var =>
        rw [execLoop_multiply, execLoop_multiply, ih]
    | divide a b var =>
        rw [execLoop_divide, execLoop_divide]
        cases Engine.divide (Engine._get_value st a) (Engine._get_value st b) with
        | error e => rfl
        | ok r => exact ih _ _
    | square_root n var =>
        rw [execLoop_square_root, execLoop_square_root]
        cases Engine.square_root sq (Engine._get_value st n) with
        | error e => rfl
        | ok r => exact ih _ _
    | conditional cond tb fb var =>
        cases cond with
        | none =>
            rw [execLoop_conditional_missing, execLoop_conditional_missing]
        | some c =>
            cases h : Engine._evaluate_condition st c with
            | true =>
                rw [execLoop_conditional_true rand sq c tb fb var (rest ++ l2) res st h,
                    execLoop_conditional_true rand sq c tb fb var rest res st h]
                rcases Engine.execLoop rand sq tb Option.none st with ⟨st1, r⟩
                cases r with
                | error e => rfl
                | ok sub => exact ih _ _
            | false =>
                rw [execLoop_conditional_false rand sq c tb fb var (rest ++ l2) res st h,
                    execLoop_conditional_false rand sq c tb fb var rest res st h]
                rcases Engine.execLoop rand sq fb Option.none st with ⟨st1, r⟩
                cases r with
                | error e => rfl
                | ok sub => exact ih _ _
    | assign var value =>
        cases var with
        | none => rw [execLoop_assign_missing, execLoop_assign_missing]
        | some v => rw [execLoop_assign, execLoop_assign, ih]
    | unknown => rw [execLoop_unknown_step, execLoop_unknown_step, ih]

theorem execLoop_all_unknown (rand : ℕ → ℚ) (sq : ℚ → ℚ) (ops : List Op)
    (res : Option ℚ) (st : EngineState)
    (h : ∀ op ∈ ops, op = Op.unknown) :
    Engine.execLoop rand sq ops res st = (st, Except.ok res) := by
  induction ops with
  | nil => exact execLoop_nil rand sq res st
  | cons op rest ih =>
    have hop : op = Op.unknown := h op (List.mem_cons_self op rest)
    subst hop
    rw [execLoop_unknown_step]
    exact ih fun o ho => h o (List.mem_cons_of_mem _ ho)

theorem lookupVar_setVar_self (env : Env) (k : String) (v : ℚ) :
    lookupVar (setVar env k v) k = some v := by
  induction env with
  | nil => simp [setVar, lookupVar]
  | cons p rest ih =>
    rcases p with ⟨k1, v1⟩
    by_cases hk : k1 = k
    · simp [setVar, lookupVar, hk]
    · simp [setVar, lookupVar, hk, ih]

theorem roundTo10_nonneg (q : ℚ) (h : 0 ≤ q) : 0 ≤ roundTo10 q := by
  unfold roundTo10
  apply div_nonneg _ (by norm_num)
  rw [round_eq]
  have h1 : (0 : ℤ) ≤ ⌊q * 10 ^ 10 + 1 / 2⌋ := by
    apply Int.le_floor.mpr
    push_cast
    nlinarith
  exact_mod_cast h1

theorem roundTo10_le_one (q : ℚ) (h : q < 1) : roundTo10 q ≤ 1 := by
  unfold roundTo10
  rw [div_le_one (by norm_num), round_eq]
  have h1 : ⌊q * 10 ^ 10 + 1 / 2⌋ ≤ (10 : ℤ) ^ 10 := by
    have h2 : (⌊q * 10 ^ 10 + 1 / 2⌋ : ℚ) ≤ q * 10 ^ 10 + 1 / 2 := Int.floor_le _
    have h3 : (⌊q * 10 ^ 10 + 1 / 2⌋ : ℚ) < 10 ^ 10 + 1 := by nlinarith
    have h4 : ⌊q * 10 ^ 10 + 1 / 2⌋ < (10 : ℤ) ^ 10 + 1 := by exact_mod_cast h3
    omega
  exact_mod_cast h1

theorem divide_err (a b : ℚ) (e : Err)
    (h : Engine.divide a b = Except.error e) : e = Err.divisionByZero := by
  unfold Engine.divide at h
  split at h
  · cases h; rfl
  · cases h

theorem square_root_err (sq : ℚ → ℚ) (n : ℚ) (e : Err)
    (h : Engine.square_root sq n = Except.error e) :
    e = Err.negativeRadicand := by
  unfold Engine.square_root at h
  split at h
  · cases h; rfl
  · cases h

theorem execLoop_err_classified (rand : ℕ → ℚ) (sq : ℚ → ℚ)
    (ops : List Op) (res : Option ℚ) (st : EngineState) :
    ∀ (st1 : EngineState) (e : Err),
      requiredKeysPresentList ops = true →
      Engine.execLoop rand sq ops res st = (st1, Except.error e) →
      e = Err.divisionByZero ∨ e = Err.negativeRadicand := by
  induction ops, res, st using Engine.execLoop.induct rand sq
  all_goals intro st1 e hwf heq
  all_goals simp only [requiredKeysPresentList, requiredKeysPresent,
    Bool.and_eq_true, Option.isSome_iff_exists] at hwf
  all_goals simp only [Engine.execLoop, *] at heq
  all_goals simp_all
  all_goals rename_i hx
  all_goals obtain ⟨heq1, heq2⟩ := heq
  all_goals subst heq2
  all_goals first
    | exact Or.inl (divide_err _ _ _ hx)
    | exact Or.inr (square_root_err _ _ _ hx)

/-- Claim C1: for every operation list, `execute_operations` processes the
operations strictly in list order and returns the value produced by the
last value-producing operation; a conditional's recursively computed
branch result counts as that operation's produced value; if the list is
empty, or no operation produced a value, it returns 0.0.  Conjuncts:
(1) empty list returns 0.0 leaving the state untouched; (2) a list in
which no operation produces a value (all unrecognized) returns 0.0;
(3) strict list order: running `l1 ++ l2` runs `l1` first and continues
with `l2` from the carried result and state; (4) if a prefix succeeds and
the final operation produces value `v`, the call returns `v`; (5) an
unrecognized operation carries the previous result through unchanged;
(6) the value a conditional produces is exactly the recursive result of
its selected branch. -/
theorem claim_C1 (rand : ℕ → ℚ) (sq : ℚ → ℚ) :
    (∀ st, Engine.execute_operations rand sq [] st = (st, Except.ok 0)) ∧
    (∀ ops st, (∀ op ∈ ops, op = Op.unknown) →
        Engine.execute_operations rand sq ops st = (st, Except.ok 0)) ∧
    (∀ l1 l2 res st, Engine.execLoop rand sq (l1 ++ l2) res st
        = match Engine.execLoop rand sq l1 res st with
          | (st1, Except.error e) => (st1, Except.error e)
          | (st1, Except.ok r1) => Engine.execLoop rand sq l2 r1 st1) ∧
    (∀ (l1 : List Op) (op : Op) (st st1 : EngineState) (r1 : Option ℚ)
        (st2 : EngineState) (v : ℚ),
        Engine.execLoop rand sq l1 Option.none st = (st1, Except.ok r1) →
        Engine.execLoop rand sq [op] r1 st1 = (st2, Except.ok (some v)) →
        Engine.execute_operations rand sq (l1 ++ [op]) st
          = (st2, Except.ok v)) ∧
    (∀ rest res st, Engine.execLoop rand sq (Op.unknown :: rest) res st
        = Engine.execLoop rand sq rest res st) ∧
    (∀ (c : Cond) (tb fb : List Op) (var : Option String) (rest : List Op)
        (res : Option ℚ) (st st1 : EngineState) (v : ℚ),
        Engine.execute_operations rand sq
            (if Engine._evaluate_condition st c then tb else fb) st
          = (st1, Except.ok v) →
        Engine.execLoop rand sq
            (Op.conditional (some c) tb fb var :: rest) res st
          = Engine.execLoop rand sq rest (some v) (maybeSet st1 var v)) := by
  refine ⟨?_, ?_, ?_, ?_, ?_, ?_⟩
  · intro st
    simp [Engine.execute_operations, execLoop_nil]
  · intro ops st h
    simp [Engine.execute_operations, execLoop_all_unknown rand sq ops _ st h]
  · intro l1 l2 res st
    exact execLoop_append rand sq l1 l2 res st
  · intro l1 op st st1 r1 st2 v h1 h2
    have h3 := execLoop_append rand sq l1 [op] Option.none st
    rw [h1] at h3
    simp only at h3
    rw [h2] at h3
    simp [Engine.execute_operations, h3]
  · intro rest res st
    exact execLoop_unknown_step rand sq rest res st
  · intro c tb fb var rest res st st1 v h
    rcases hbr : Engine.execLoop rand sq
        (if Engine._evaluate_condition st c then tb else fb)
        Option.none st with ⟨st2, r⟩
    unfold Engine.execute_operations at h
    rw [hbr] at h
    cases r with
    | error e => simp at h
    | ok sub =>
        simp only [Prod.mk.injEq, Except.ok.injEq] at h
        obtain ⟨rfl, hv⟩ := h
        cases hc : Engine._evaluate_condition st c with
        | true =>
            rw [hc] at hbr
            simp only [if_true] at hbr
            rw [execLoop_conditional_true rand sq c tb fb var rest res st hc,
              hbr]
            simp [hv]
        | false =>
            rw [hc] at hbr
            simp at hbr
            rw [execLoop_conditional_false rand sq c tb fb var rest res st hc,
              hbr]
            simp [hv]

/-- Witness for C1: a list containing only an unrecognized operation
returns 0.0 and leaves the fresh state untouched. -/
theorem claim_C1_witness :
    Engine.execute_operations (fun _ => 0) (fun _ => 0) [Op.unknown] initState
      = (initState, Except.ok 0) :=
  (claim_C1 (fun _ => 0) (fun _ => 0)).2.1 [Op.unknown] initState
    (by intro op hop; simpa using hop)

/-- Claim C2: a `divide` operation whose resolved second operand equals
exactly 0 fails with Division-by-zero and produces no result; otherwise it
returns `a / b` rounded to 10 decimal places, stored under `variable`
when that key is present. -/
theorem claim_C2 (rand : ℕ → ℚ) (sq : ℚ → ℚ) (a b : Val)
    (var : Option String) (rest : List Op) (res : Option ℚ)
    (st : EngineState) :
    (∀ x : ℚ, Engine.divide x 0 = Except.error Err.divisionByZero) ∧
    (∀ x y : ℚ, y ≠ 0 →
        Engine.divide x y = Except.ok (roundTo10 (x / y))) ∧
    (Engine._get_value st b = 0 →
        Engine.execLoop rand sq (Op.divide a b var :: rest) res st
          = (st, Except.error Err.divisionByZero)) ∧
    (Engine._get_value st b ≠ 0 →
        Engine.execLoop rand sq (Op.divide a b var :: rest) res st
          = Engine.execLoop rand sq rest
              (some (roundTo10
                (Engine._get_value st a / Engine._get_value st b)))
              (maybeSet st var (roundTo10
                (Engine._get_value st a / Engine._get_value st b)))) ∧
    (∀ v : String, var = some v →
        lookupVar (maybeSet st var (roundTo10
            (Engine._get_value st a / Engine._get_value st b))).vars v
          = some (roundTo10
              (Engine._get_value st a / Engine._get_value st b))) := by
  refine ⟨?_, ?_, ?_, ?_, ?_⟩
  · intro x; simp [Engine.divide]
  · intro x y hy; simp [Engine.divide, hy]
  · intro hb
    rw [execLoop_divide]
    simp [Engine.divide, hb]
  · intro hb
    rw [execLoop_divide]
    simp [Engine.divide, hb]
  · intro v hv
    subst hv
    simp [maybeSet, lookupVar_setVar_self]

/-- Witness for C2: dividing 1 by 2 stores and carries `round(1/2, 10)`. -/
theorem claim_C2_witness :
    Engine._get_value initState (Val.num 2) ≠ 0 ∧
    Engine.execLoop (fun _ => 0) (fun _ => 0)
        [Op.divide (Val.num 1) (Val.num 2) (some "y")] Option.none initState
      = Engine.execLoop (fun _ => 0) (fun _ => 0) []
          (some (roundTo10 (Engine._get_value initState (Val.num 1) /
            Engine._get_value initState (Val.num 2))))
          (maybeSet initState (some "y")
            (roundTo10 (Engine._get_value initState (Val.num 1) /
              Engine._get_value initState (Val.num 2)))) :=
  ⟨by norm_num [Engine._get_value],
    (claim_C2 (fun _ => 0) (fun _ => 0) (Val.num 1) (Val.num 2) (some "y")
      [] Option.none initState).2.2.2.1 (by norm_num [Engine._get_value])⟩

/-- Claim C3: a `square_root` operation whose resolved operand is strictly
negative fails with Negative-radicand; otherwise it returns the square
root of the operand (the ambient float `sqrt` `sq`) rounded to 10 decimal
places, stored under `variable` when that key is present. -/
theorem claim_C3 (rand : ℕ → ℚ) (sq : ℚ → ℚ) (n : Val)
    (var : Option String) (rest : List Op) (res : Option ℚ)
    (st : EngineState) :
    (∀ x : ℚ, x < 0 →
        Engine.square_root sq x = Except.error Err.negativeRadicand) ∧
    (∀ x : ℚ, 0 ≤ x →
        Engine.square_root sq x = Except.ok (roundTo10 (sq x))) ∧
    (Engine._get_value st n < 0 →
        Engine.execLoop rand sq (Op.square_root n var :: rest) res st
          = (st, Except.error Err.negativeRadicand)) ∧
    (0 ≤ Engine._get_value st n →
        Engine.execLoop rand sq (Op.square_root n var :: rest) res st
          = Engine.execLoop rand sq rest
              (some (roundTo10 (sq (Engine._get_value st n))))
              (maybeSet st var (roundTo10 (sq (Engine._get_value st n))))) := by
  refine ⟨?_, ?_, ?_, ?_⟩
  · intro x hx; simp [Engine.square_root, hx]
  · intro x hx; simp [Engine.square_root, not_lt.mpr hx]
  · intro hn
    rw [execLoop_square_root]
    simp [Engine.square_root, hn]
  · intro hn
    rw [execLoop_square_root]
    simp [Engine.square_root, not_lt.mpr hn]

/-- Witness for C3: the square root of 4 (under a concrete `sqrt`
returning 2 there) is carried as `round(2, 10)`. -/
theorem claim_C3_witness :
    (0 : ℚ) ≤ Engine._get_value initState (Val.num 4) ∧
    Engine.execLoop (fun _ => 0) (fun q => if q = 4 then 2 else 0)
        [Op.square_root (Val.num 4) Option.none] Option.none initState
      = Engine.execLoop (fun _ => 0) (fun q => if q = 4 then 2 else 0) []
          (some (roundTo10 ((fun q : ℚ => if q = 4 then 2 else 0)
            (Engine._get_value initState (Val.num 4)))))
          (maybeSet initState Option.none
            (roundTo10 ((fun q : ℚ => if q = 4 then 2 else 0)
              (Engine._get_value initState (Val.num 4))))) :=
  ⟨by norm_num [Engine._get_value],
    (claim_C3 (fun _ => 0) (fun q => if q = 4 then 2 else 0) (Val.num 4)
      Option.none [] Option.none initState).2.2.2
      (by norm_num [Engine._get_value])⟩

/-- Claim C4: Value Resolution is total and lenient: a null/absent
reference resolves to 0.0; a string naming an existing variable resolves
to that variable's current value (lookup precedes numeric coercion); any
other reference is coerced numerically, resolving to 0.0 on coercion
failure (numbers coerce to themselves, non-numeric non-string objects
fail); resolution is a total function and never raises. -/
theorem claim_C4 (st : EngineState) :
    (Engine._get_value st Val.none = 0) ∧
    (∀ (s : String) (v : ℚ), lookupVar st.vars s = some v →
        Engine._get_value st (Val.str s) = v) ∧
    (∀ q : ℚ, Engine._get_value st (Val.num q) = q) ∧
    (∀ s : String, lookupVar st.vars s = Option.none →
        Engine._get_value st (Val.str s) = (pyFloat s).getD 0) ∧
    (Engine._get_value st Val.other = 0) := by
  refine ⟨rfl, ?_, fun q => rfl, ?_, rfl⟩
  · intro s v h
    simp [Engine._get_value, h]
  · intro s h
    simp only [Engine._get_value, h]
    cases pyFloat s <;> simp

/-- Witness for C4: a variable literally named "5" shadows the numeric
string "5" (lookup precedence), and the unbound non-numeric string "yes"
degrades to 0.0. -/
theorem claim_C4_witness :
    (lookupVar (EngineState.mk [] [("5", 7)]).vars "5" = some 7 ∧
      Engine._get_value (EngineState.mk [] [("5", 7)]) (Val.str "5") = 7) ∧
    (lookupVar initState.vars "yes" = Option.none ∧
      Engine._get_value initState (Val.str "yes") = (pyFloat "yes").getD 0) :=
  ⟨⟨by simp [lookupVar],
      (claim_C4 (EngineState.mk [] [("5", 7)])).2.1 "5" 7 (by simp [lookupVar])⟩,
    ⟨by simp [lookupVar, initState],
      (claim_C4 initState).2.2.2.1 "yes" (by simp [lookupVar, initState])⟩⟩

/-- Claim C5: condition evaluation resolves both sides via Value
Resolution, compares `<`, `>`, `<=`, `>=` numerically, treats `==` as
true iff the absolute difference is below 1e-10 and `!=` as its exact
complement, and evaluates any unrecognized (or missing) operator to
false without raising. -/
theorem claim_C5 (st : EngineState) (l r : Val) :
    (Engine._evaluate_condition st (Cond.mk l (some "<") r)
        = decide (Engine._get_value st l < Engine._get_value st r)) ∧
    (Engine._evaluate_condition st (Cond.mk l (some ">") r)
        = decide (Engine._get_value st r < Engine._get_value st l)) ∧
    (Engine._evaluate_condition st (Cond.mk l (some "<=") r)
        = decide (Engine._get_value st l ≤ Engine._get_value st r)) ∧
    (Engine._evaluate_condition st (Cond.mk l (some ">=") r)
        = decide (Engine._get_value st r ≤ Engine._get_value st l)) ∧
    (Engine._evaluate_condition st (Cond.mk l (some "==") r) = true ↔
        |Engine._get_value st l - Engine._get_value st r| < 1 / 10 ^ 10) ∧
    (Engine._evaluate_condition st (Cond.mk l (some "!=") r) = true ↔
        1 / 10 ^ 10 ≤ |Engine._get_value st l - Engine._get_value st r|) ∧
    (∀ o : String,
        o ∉ (["<", ">", "<=", ">=", "==", "!="] : List String) →
        Engine._evaluate_condition st (Cond.mk l (some o) r) = false) ∧
    (Engine._evaluate_condition st (Cond.mk l Option.none r) = false) := by
  refine ⟨?_, ?_, ?_, ?_, ?_, ?_, ?_, ?_⟩
  · simp [Engine._evaluate_condition]
  · simp [Engine._evaluate_condition]
  · simp [Engine._evaluate_condition]
  · simp [Engine._evaluate_condition]
  · simp [Engine._evaluate_condition, Engine.tol]
  · simp [Engine._evaluate_condition, Engine.tol]
  · intro o ho
    simp only [List.mem_cons, List.not_mem_nil, or_false, not_or] at ho
    obtain ⟨h1, h2, h3, h4, h5, h6⟩ := ho
    unfold Engine._evaluate_condition
    split
    all_goals simp_all
  · simp [Engine._evaluate_condition]

/-- Witness for C5: the operator "=>" is unrecognized and evaluates to
false. -/
theorem claim_C5_witness :
    Engine._evaluate_condition initState
        (Cond.mk (Val.num 1) (some "=>") (Val.num 1)) = false :=
  (claim_C5 initState (Val.num 1) (Val.num 1)).2.2.2.2.2.2.1 "=>"
    (by simp)

/-- Claim C6: a Division-by-zero or Negative-radicand failure aborts the
entire execute call immediately: (1) once a prefix fails, appending more
operations changes nothing — nothing after the failing operation runs and
the state at the raise site (with all variable entries and random-trace
entries made before the failure) is the engine's final state; (2) a
failure inside a conditional's selected branch propagates out of the
enclosing recursive call unchanged; (3) the top-level call maps the
failure through, returning the error and no result. -/
theorem claim_C6 (rand : ℕ → ℚ) (sq : ℚ → ℚ) :
    (∀ (l1 l2 : List Op) (res : Option ℚ) (st st1 : EngineState) (e : Err),
        e = Err.divisionByZero ∨ e = Err.negativeRadicand →
        Engine.execLoop rand sq l1 res st = (st1, Except.error e) →
        Engine.execLoop rand sq (l1 ++ l2) res st
          = (st1, Except.error e)) ∧
    (∀ (c : Cond) (tb fb : List Op) (var : Option String) (rest : List Op)
        (res : Option ℚ) (st st1 : EngineState) (e : Err),
        e = Err.divisionByZero ∨ e = Err.negativeRadicand →
        Engine.execLoop rand sq
            (if Engine._evaluate_condition st c then tb else fb)
            Option.none st = (st1, Except.error e) →
        Engine.execLoop rand sq (Op.conditional (some c) tb fb var :: rest)
            res st = (st1, Except.error e)) ∧
    (∀ (ops : List Op) (st st1 : EngineState) (e : Err),
        Engine.execLoop rand sq ops Option.none st
          = (st1, Except.error e) →
        Engine.execute_operations rand sq ops st
          = (st1, Except.error e)) := by
  refine ⟨?_, ?_, ?_⟩
  · intro l1 l2 res st st1 e _ h
    rw [execLoop_append, h]
  · intro c tb fb var rest res st st1 e _ h
    cases hc : Engine._evaluate_condition st c with
    | true =>
        rw [hc] at h
        simp only [if_true] at h
        rw [execLoop_conditional_true rand sq c tb fb var rest res st hc, h]
    | false =>
        rw [hc] at h
        simp at h
        rw [execLoop_conditional_false rand sq c tb fb var rest res st hc, h]
  · intro ops st st1 e h
    simp [Engine.execute_operations, h]

/-- Witness for C6: after `assign x := 5`, dividing by zero aborts; the
following `generate_random` never runs, and the final state still carries
the prior entry `x = 5` with an empty random trace. -/
theorem claim_C6_witness :
    Engine.execLoop (fun _ => 0) (fun _ => 0)
        ([Op.assign (some "x") (Val.num 5),
          Op.divide (Val.num 1) (Val.num 0) Option.none]
          ++ [Op.generate_random Option.none]) Option.none initState
      = (EngineState.mk [] [("x", 5)], Except.error Err.divisionByZero) := by
  apply (claim_C6 (fun _ => 0) (fun _ => 0)).1 _ _ _ _ _ _ (Or.inl rfl)
  rw [execLoop_assign, execLoop_divide]
  norm_num [Engine._get_value, Engine.divide, setVar, initState]

/-- Counterexample for C7 as stated: the draw `1 - 2⁻⁵³` is a value
`random.random()` can return (it lies in `[0, 1)` and is a multiple of
`2⁻⁵³`), yet `generate_random` rounds it to exactly 1, which is outside
the half-open interval `[0, 1)`. -/
theorem claim_C7_counterexample :
    0 ≤ ((2 ^ 53 - 1) / 2 ^ 53 : ℚ) ∧
    ((2 ^ 53 - 1) / 2 ^ 53 : ℚ) < 1 ∧
    (Engine.generate_random (fun _ => (2 ^ 53 - 1) / 2 ^ 53)
        initState).1 = 1 ∧
    ¬ ((Engine.generate_random (fun _ => (2 ^ 53 - 1) / 2 ^ 53)
        initState).1 < 1) := by
  have h : round ((((2 : ℚ) ^ 53 - 1) / 2 ^ 53) * 10 ^ 10)
      = (10 : ℤ) ^ 10 := by
    rw [round_eq]
    rw [Int.floor_eq_iff]
    constructor <;> norm_num
  have h2 : (Engine.generate_random (fun _ => (2 ^ 53 - 1) / 2 ^ 53)
      initState).1 = 1 := by
    simp [Engine.generate_random, roundTo10, initState, h]
    norm_num
  exact ⟨by norm_num, by norm_num, h2, by rw [h2]; norm_num⟩

/-- Claim C7 (amended): when every underlying draw lies in `[0, 1)`, each
`generate_random` operation returns the draw rounded to 10 decimal places
— a value in the closed interval `[0, 1]`, since rounding can land
exactly on 1 — and appends exactly that one value to the Random Trace, so
the trace records every draw in generation order regardless of whether
the draw is bound to a variable or used in the final result. -/
theorem claim_C7 (rand : ℕ → ℚ) (sq : ℚ → ℚ) (var : Option String)
    (rest : List Op) (res : Option ℚ) (st : EngineState)
    (hr : ∀ k, 0 ≤ rand k ∧ rand k < 1) :
    (0 ≤ (Engine.generate_random rand st).1 ∧
      (Engine.generate_random rand st).1 ≤ 1) ∧
    Engine.generate_random rand st
      = (roundTo10 (rand st.random_numbers.length),
          EngineState.mk
            (st.random_numbers
              ++ [roundTo10 (rand st.random_numbers.length)])
            st.vars) ∧
    Engine.execLoop rand sq (Op.generate_random var :: rest) res st
      = Engine.execLoop rand sq rest
          (some (Engine.generate_random rand st).1)
          (maybeSet (Engine.generate_random rand st).2 var
            (Engine.generate_random rand st).1) := by
  refine ⟨⟨?_, ?_⟩, rfl, ?_⟩
  · exact roundTo10_nonneg _ (hr _).1
  · exact roundTo10_le_one _ (hr _).2
  · exact execLoop_generate_random rand sq var rest res st

/-- Witness for C7: with a constant draw of 1/2 the returned value is
`round(1/2, 10)`, in bounds, and the trace gains exactly that entry. -/
theorem claim_C7_witness :
    (0 ≤ (Engine.generate_random (fun _ => 1 / 2) initState).1 ∧
      (Engine.generate_random (fun _ => 1 / 2) initState).1 ≤ 1) ∧
    Engine.generate_random (fun _ => 1 / 2) initState
      = (roundTo10 ((1 : ℚ) / 2),
          EngineState.mk [roundTo10 ((1 : ℚ) / 2)] []) ∧
    Engine.execLoop (fun _ => 1 / 2) (fun _ => 0)
        [Op.generate_random Option.none] Option.none initState
      = Engine.execLoop (fun _ => 1 / 2) (fun _ => 0) []
          (some (Engine.generate_random (fun _ => 1 / 2) initState).1)
          (maybeSet (Engine.generate_random (fun _ => 1 / 2) initState).2
            Option.none
            (Engine.generate_random (fun _ => 1 / 2) initState).1) :=
  claim_C7 (fun _ => 1 / 2) (fun _ => 0) Option.none [] Option.none
    initState (fun _ => by norm_num)

/-- Counterexample for C8 as stated: an `assign` operation without its
`variable` key makes the engine raise a `KeyError`, an error that is
neither Division-by-zero nor Negative-radicand — so malformed input is
not always absorbed silently. -/
theorem claim_C8_counterexample :
    (Engine.execute_operations (fun _ => 0) (fun _ => 0)
        [Op.assign Option.none (Val.num 1)] initState).2
      = Except.error (Err.keyError "variable") ∧
    Err.keyError "variable" ≠ Err.divisionByZero ∧
    Err.keyError "variable" ≠ Err.negativeRadicand := by
  refine ⟨?_, by simp, by simp⟩
  simp [Engine.execute_operations, execLoop_assign_missing]

/-- Claim C8 (amended): provided every `assign` carries its required
`variable` key and every `conditional` carries its `condition` dict
(recursively in branches), the only errors the engine ever raises are
Division-by-zero and Negative-radicand; missing value-reference fields,
malformed Value References, unrecognized operation types and unrecognized
operators are absorbed silently. -/
theorem claim_C8 (rand : ℕ → ℚ) (sq : ℚ → ℚ) (ops : List Op)
    (st st1 : EngineState) (e : Err)
    (hwf : requiredKeysPresentList ops = true)
    (herr : Engine.execute_operations rand sq ops st
      = (st1, Except.error e)) :
    e = Err.divisionByZero ∨ e = Err.negativeRadicand := by
  apply execLoop_err_classified rand sq ops Option.none st st1 e hwf
  revert herr
  unfold Engine.execute_operations
  rcases Engine.execLoop rand sq ops Option.none st with ⟨st2, r⟩
  cases r with
  | error e2 =>
      intro h
      simp only [Prod.mk.injEq, Except.error.injEq] at h
      obtain ⟨rfl, rfl⟩ := h
      rfl
  | ok v => intro h; simp at h

/-- Witness for C8: the well-formed list `[divide 1 0]` fails, and the
theorem classifies its error among the two numeric errors. -/
theorem claim_C8_witness :
    Err.divisionByZero = Err.divisionByZero ∨
      Err.divisionByZero = Err.negativeRadicand :=
  claim_C8 (fun _ => 0) (fun _ => 0)
    [Op.divide (Val.num 1) (Val.num 0) Option.none] initState initState
    Err.divisionByZero
    (by simp [requiredKeysPresentList, requiredKeysPresent])
    (by simp [Engine.execute_operations, execLoop_divide, Engine.divide,
      Engine._get_value])

/-- Claim C9: the two `ExecutionEngine` copies (services module and the
duplicate in `main.py`) have identical math: for every operation list,
the same draw stream and the same float `sqrt`, both produce the same
outcome — same final result or error, same variable environment, and same
random trace. -/
theorem claim_C9 (rand : ℕ → ℚ) (sq : ℚ → ℚ) (ops : List Op)
    (st : EngineState) :
    Engine.execute_operations rand sq ops st
      = Main.execute_operations rand sq ops st := by
  unfold Engine.execute_operations Main.execute_operations
  rw [engines_execLoop_eq]

/-- Claim C10: a conditional whose selected branch is empty produces 0.0
(the recursive call's default), which becomes the running result —
overwriting whatever any earlier operation produced (the carried `res` is
arbitrary) — and is stored under the conditional's `variable` when
present; an unrecognized operation type, by contrast, leaves the running
result unchanged. -/
theorem claim_C10 (rand : ℕ → ℚ) (sq : ℚ → ℚ) (c : Cond) (tb fb : List Op)
    (var : Option String) (rest : List Op) (res : Option ℚ)
    (st : EngineState) :
    (Engine._evaluate_condition st c = true →
        Engine.execLoop rand sq
            (Op.conditional (some c) [] fb var :: rest) res st
          = Engine.execLoop rand sq rest (some 0) (maybeSet st var 0)) ∧
    (Engine._evaluate_condition st c = false →
        Engine.execLoop rand sq
            (Op.conditional (some c) tb [] var :: rest) res st
          = Engine.execLoop rand sq rest (some 0) (maybeSet st var 0)) ∧
    (∀ v : String, var = some v →
        lookupVar (maybeSet st var 0).vars v = some 0) ∧
    (Engine.execLoop rand sq (Op.unknown :: rest) res st
        = Engine.execLoop rand sq rest res st) := by
  refine ⟨?_, ?_, ?_, ?_⟩
  · intro hc
    rw [execLoop_conditional_true rand sq c [] fb var rest res st hc,
      execLoop_nil]
    rfl
  · intro hc
    rw [execLoop_conditional_false rand sq c tb [] var rest res st hc,
      execLoop_nil]
    rfl
  · intro v hv
    subst hv
    simp [maybeSet, lookupVar_setVar_self]
  · exact execLoop_unknown_step rand sq rest res st

/-- Witness for C10: a true condition with an empty `if_true` branch
overwrites the carried result 42 with 0.0 and stores 0.0 under "z". -/
theorem claim_C10_witness :
    Engine._evaluate_condition initState
        (Cond.mk (Val.num 1) (some "<") (Val.num 2)) = true ∧
    Engine.execLoop (fun _ => 0) (fun _ => 0)
        [Op.conditional (some (Cond.mk (Val.num 1) (some "<") (Val.num 2)))
          [] [Op.unknown] (some "z")] (some 42) initState
      = Engine.execLoop (fun _ => 0) (fun _ => 0) [] (some 0)
          (maybeSet initState (some "z") 0) :=
  ⟨by norm_num [Engine._evaluate_condition, Engine._get_value],
    (claim_C10 (fun _ => 0) (fun _ => 0)
        (Cond.mk (Val.num 1) (some "<") (Val.num 2)) [Op.unknown]
        [Op.unknown] (some "z") [] (some 42) initState).1
      (by norm_num [Engine._evaluate_condition, Engine._get_value])⟩
